import Mathlib

/-!
Shallow embedding of `redis-jwt-hash-store-validator` (src/index.js).

The component hashes raw JWT strings with SHA-256, composes Redis keys
`<category-prefix>:<identifier>:<fingerprint>`, and issues hash-set /
expire / exists / del / keys commands against a Redis store.  We model

* SHA-256 over `Nat` words (explicit `% 2^32`), producing the lowercase
  hexadecimal digest exactly as `crypto.createHash('sha256')...digest('hex')`;
* the Redis store as an association list of entries
  `(key, fieldMap, optional ttl)` together with the documented semantics
  of HSET / EXPIRE / EXISTS / DEL / KEYS used by the component;
* each public operation as a pure function returning the list of Redis
  commands it issues (its trace) together with the resulting store state.
-/

/-- Truncation to a 32-bit word: JavaScript's crypto operates on 32-bit
words; we model them as `Nat` reduced mod `2^32`. -/
def w32 (n : Nat) : Nat := n % 4294967296

/-- Right rotation of a 32-bit word by `n` bits. -/
def rotr (n x : Nat) : Nat := w32 ((x >>> n) ||| (x <<< (32 - n)))

/-- Bitwise complement of a 32-bit word. -/
def bnot32 (x : Nat) : Nat := Nat.xor x 4294967295

/-- SHA-256 small sigma 0. -/
def ssig0 (x : Nat) : Nat := Nat.xor (Nat.xor (rotr 7 x) (rotr 18 x)) (x >>> 3)

/-- SHA-256 small sigma 1. -/
def ssig1 (x : Nat) : Nat := Nat.xor (Nat.xor (rotr 17 x) (rotr 19 x)) (x >>> 10)

/-- SHA-256 big sigma 0. -/
def bsig0 (x : Nat) : Nat := Nat.xor (Nat.xor (rotr 2 x) (rotr 13 x)) (rotr 22 x)

/-- SHA-256 big sigma 1. -/
def bsig1 (x : Nat) : Nat := Nat.xor (Nat.xor (rotr 6 x) (rotr 11 x)) (rotr 25 x)

/-- The 64 SHA-256 round constants. -/
def K256 : List Nat :=
  [1116352408, 1899447441, 3049323471, 3921009573,
   961987163, 1508970993, 2453635748, 2870763221,
   3624381080, 310598401, 607225278, 1426881987,
   1925078388, 2162078206, 2614888103, 3248222580,
   3835390401, 4022224774, 264347078, 604807628,
   770255983, 1249150122, 1555081692, 1996064986,
   2554220882, 2821834349, 2952996808, 3210313671,
   3336571891, 3584528711, 113926993, 338241895,
   666307205, 773529912, 1294757372, 1396182291,
   1695183700, 1986661051, 2177026350, 2456956037,
   2730485921, 2820302411, 3259730800, 3345764771,
   3516065817, 3600352804, 4094571909, 275423344,
   430227734, 506948616, 659060556, 883997877,
   958139571, 1322822218, 1537002063, 1747873779,
   1955562222, 2024104815, 2227730452, 2361852424,
   2428436474, 2756734187, 3204031479, 3329325298]

/-- Working state of the SHA-256 compression function (eight 32-bit words). -/
structure Sha256State where
  a : Nat
  b : Nat
  c : Nat
  d : Nat
  e : Nat
  f : Nat
  g : Nat
  h : Nat

/-- One SHA-256 compression round, consuming a pair (round constant, schedule word). -/
def sha256Round (st : Sha256State) (kw : Nat × Nat) : Sha256State :=
  let s1 := bsig1 st.e
  let ch := Nat.xor (st.e &&& st.f) ((bnot32 st.e) &&& st.g)
  let temp1 := w32 (st.h + s1 + ch + kw.1 + kw.2)
  let s0 := bsig0 st.a
  let maj := Nat.xor (Nat.xor (st.a &&& st.b) (st.a &&& st.c)) (st.b &&& st.c)
  let temp2 := w32 (s0 + maj)
  ⟨w32 (temp1 + temp2), st.a, st.b, st.c, w32 (st.d + temp1), st.e, st.f, st.g⟩

/-- Extend a 16-word block to the 64-word message schedule. -/
def msgSchedule (ws : List Nat) : List Nat :=
  (List.range 48).foldl
    (fun acc i =>
      acc ++ [w32 (ssig1 (acc.getD (i + 14) 0) + acc.getD (i + 9) 0 +
                   ssig0 (acc.getD (i + 1) 0) + acc.getD i 0)])
    ws

/-- Compress one 16-word block into the hash state. -/
def compressBlock (hs : Sha256State) (block : List Nat) : Sha256State :=
  let st := (K256.zip (msgSchedule block)).foldl sha256Round hs
  ⟨w32 (hs.a + st.a), w32 (hs.b + st.b), w32 (hs.c + st.c), w32 (hs.d + st.d),
   w32 (hs.e + st.e), w32 (hs.f + st.f), w32 (hs.g + st.g), w32 (hs.h + st.h)⟩

/-- UTF-8 encoding of a single character as a list of byte values. -/
def utf8Bytes (c : Char) : List Nat :=
  let n := c.toNat
  if n < 128 then [n]
  else if n < 2048 then [192 + n / 64, 128 + n % 64]
  else if n < 65536 then [224 + n / 4096, 128 + (n / 64) % 64, 128 + n % 64]
  else [240 + n / 262144, 128 + (n / 4096) % 64, 128 + (n / 64) % 64, 128 + n % 64]

/-- SHA-256 padding: append 0x80, zero bytes, and the 64-bit big-endian bit
length so the total byte length is a multiple of 64. -/
def padMessage (bytes : List Nat) : List Nat :=
  let len := bytes.length
  let bitLen := len * 8
  let padZeros := (119 - len % 64) % 64
  bytes ++ [128] ++ List.replicate padZeros 0 ++
    (List.range 8).map (fun i => (bitLen >>> ((7 - i) * 8)) % 256)

/-- Group a byte list into big-endian 32-bit words (four bytes per word). -/
def bytesToWords : List Nat → List Nat
  | b0 :: b1 :: b2 :: b3 :: rest =>
      (b0 * 16777216 + b1 * 65536 + b2 * 256 + b3) :: bytesToWords rest
  | _ => []

/-- Initial SHA-256 hash state. -/
def initSha256 : Sha256State :=
  ⟨1779033703, 3144134277, 1013904242, 2773480762, 1359893119, 2600822924, 528734635, 1541459225⟩

/-- Fold the compression function over a list of words, 16 words (one block)
per step; the fuel argument counts the remaining blocks. -/
def processWordsAux : Nat → Sha256State → List Nat → Sha256State
  | 0, st, _ => st
  | fuel + 1, st, ws => processWordsAux fuel (compressBlock st (ws.take 16)) (ws.drop 16)

/-- Fold the compression function over the padded message, 16 words at a time. -/
def processWords (st : Sha256State) (ws : List Nat) : Sha256State :=
  processWordsAux (ws.length / 16) st ws

/-- The sixteen lowercase hexadecimal digit characters. -/
def hexChars : List Char := "0123456789abcdef".data

/-- Lowercase hexadecimal digit for a value below 16. -/
def hexDigit (n : Nat) : Char := hexChars.getD n '0'

/-- Fixed-width (8 digit) lowercase hexadecimal rendering of a 32-bit word. -/
def toHex8 (w : Nat) : List Char :=
  (List.range 8).map (fun i => hexDigit ((w >>> ((7 - i) * 4)) &&& 15))

/-- Render the final hash state as 64 lowercase hexadecimal characters. -/
def stateToHex (st : Sha256State) : List Char :=
  toHex8 st.a ++ toHex8 st.b ++ toHex8 st.c ++ toHex8 st.d ++
  toHex8 st.e ++ toHex8 st.f ++ toHex8 st.g ++ toHex8 st.h

/-- Lowercase hexadecimal SHA-256 digest of a string's UTF-8 bytes: the model
of `crypto.createHash('sha256').update(jwtToken).digest('hex')`. -/
def sha256Hex (s : String) : String :=
  ⟨stateToHex (processWords initSha256 (bytesToWords (padMessage (s.data.flatMap utf8Bytes))))⟩

/-- Embedding of `hashJWT` (src/index.js line 7): hash a JWT string using SHA-256. -/
def hashJWT (jwtToken : String) : String := sha256Hex jwtToken

/-! ### Redis store model

The external Redis store is an excluded collaborator (spec section 1); we
model the commands the component issues and the documented semantics of
the five primitives it uses: HSET (create-or-update fields at a key,
preserving other fields and any TTL), EXPIRE (attach/replace a TTL on an
existing key), EXISTS, DEL, and KEYS (blocking glob enumeration of the
whole keyspace).  SCAN (cursor-based iteration) is included as a command
constructor so that its use, or absence, is expressible in a trace. -/

/-- A Redis hash value: an association list of field/value pairs. -/
abbrev FieldMap := List (String × String)

/-- One Redis command issued by the component. -/
inductive RedisCmd where
  | hSet (key : String) (fields : FieldMap)
  | expire (key : String) (seconds : Int)
  | existsQ (key : String)
  | del (keys : List String)
  | keysQ (pattern : String)
  | scanQ (pattern : String)
  deriving Repr, DecidableEq

/-- The Redis keyspace: a list of entries `(key, fields, optional ttl)`. -/
structure RedisState where
  entries : List (String × FieldMap × Option Int)
  deriving Repr, DecidableEq

/-- The empty keyspace. -/
def emptyRedis : RedisState := ⟨[]⟩

/-- EXISTS: whether a key is present. -/
def existsKey (s : RedisState) (key : String) : Bool :=
  s.entries.any (fun e => e.1 == key)

/-- TTL currently attached to a key, if any. -/
def ttlOf (s : RedisState) (key : String) : Option Int :=
  (s.entries.find? (fun e => e.1 == key)).bind (fun e => e.2.2)

/-- Field map stored at a key, if the key is present. -/
def fieldsOf (s : RedisState) (key : String) : Option FieldMap :=
  (s.entries.find? (fun e => e.1 == key)).map (fun e => e.2.1)

/-- Set one field in a hash value, overwriting an existing field of the
same name and appending a new field otherwise. -/
def setField (m : FieldMap) (kv : String × String) : FieldMap :=
  if m.any (fun p => p.1 == kv.1) then m.map (fun p => if p.1 == kv.1 then kv else p)
  else m ++ [kv]

/-- HSET field semantics: apply every given field to an existing hash value. -/
def hsetMerge (m new : FieldMap) : FieldMap := new.foldl setField m

/-- HSET: update the fields of an existing key (its TTL is untouched), or
create the key with the given fields and no TTL. -/
def applyHSet (s : RedisState) (key : String) (fs : FieldMap) : RedisState :=
  if existsKey s key then
    ⟨s.entries.map (fun e => if e.1 == key then (e.1, hsetMerge e.2.1 fs, e.2.2) else e)⟩
  else ⟨s.entries ++ [(key, hsetMerge [] fs, none)]⟩

/-- EXPIRE: attach/replace the TTL of a key (no-op when the key is absent). -/
def applyExpire (s : RedisState) (key : String) (secs : Int) : RedisState :=
  ⟨s.entries.map (fun e => if e.1 == key then (e.1, e.2.1, some secs) else e)⟩

/-- DEL: remove every listed key. -/
def applyDel (s : RedisState) (keys : List String) : RedisState :=
  ⟨s.entries.filter (fun e => !(keys.contains e.1))⟩

/-- Redis glob matching restricted to the constructs the component can
produce in a pattern: literal characters, `?` (any one character) and `*`
(any run of characters).  The fuel argument bounds the recursion by the
combined length of pattern and subject. -/
def globMatchAux : Nat → List Char → List Char → Bool
  | 0, _, _ => false
  | _ + 1, [], [] => true
  | _ + 1, [], _ :: _ => false
  | fuel + 1, p :: ps, [] => p == '*' && globMatchAux fuel ps []
  | fuel + 1, p :: ps, c :: ks =>
      if p == '*' then globMatchAux fuel ps (c :: ks) || globMatchAux fuel (p :: ps) ks
      else (p == '?' || p == c) && globMatchAux fuel ps ks

/-- Whether a glob pattern matches a key. -/
def globMatch (pat key : String) : Bool :=
  globMatchAux (pat.data.length + key.data.length + 1) pat.data key.data

/-- KEYS: every key of the store matching a glob pattern, in store order. -/
def keysMatching (s : RedisState) (pat : String) : List String :=
  (s.entries.map (fun e => e.1)).filter (fun k => globMatch pat k)

/-! ### The component (class RedisJWTHashStore, src/index.js)

Each method is embedded as a pure function from its arguments and the
current store state to the list of Redis commands it issues (in order)
and the resulting store state. -/

/-- Configuration of the component: the two category prefixes
(constructor of `RedisJWTHashStore`, src/index.js lines 12-20). -/
structure RedisJWTHashStore where
  prefixValid : String
  prefixBlacklist : String
  deriving Repr, DecidableEq

/-- The default configuration from the constructor's defaults. -/
def defaultStore : RedisJWTHashStore := ⟨"valid-jwt", "blacklisted-jwt"⟩

/-- The JavaScript guard `expiration && expiration > 0`: the TTL argument
may be absent (undefined, falsy), zero (falsy), or a number compared
against zero. -/
def ttlRequested : Option Int → Bool
  | none => false
  | some n => !(n == 0) && decide (0 < n)

/-- Embedding of `storeValidJWT` (src/index.js lines 34-48). -/
def storeValidJWT (store : RedisJWTHashStore) (keyName rawJWT locale : String)
    (expiration : Option Int) (s : RedisState) : List RedisCmd × RedisState :=
  let jwtHash := hashJWT rawJWT
  let redisKey := store.prefixValid ++ ":" ++ keyName ++ ":" ++ jwtHash
  let fields : FieldMap := [("keyName", keyName), ("jwtHash", jwtHash), ("locale", locale)]
  let s1 := applyHSet s redisKey fields
  if ttlRequested expiration then
    ([RedisCmd.hSet redisKey fields, RedisCmd.expire redisKey (expiration.getD 0)],
     applyExpire s1 redisKey (expiration.getD 0))
  else
    ([RedisCmd.hSet redisKey fields], s1)

/-- Embedding of `storeBlacklistedJWT` (src/index.js lines 53-66). -/
def storeBlacklistedJWT (store : RedisJWTHashStore) (keyName rawJWT locale : String)
    (expiration : Option Int) (s : RedisState) : List RedisCmd × RedisState :=
  let jwtHash := hashJWT rawJWT
  let redisKey := store.prefixBlacklist ++ ":" ++ keyName ++ ":" ++ jwtHash
  let fields : FieldMap := [("keyName", keyName), ("jwtHash", jwtHash), ("locale", locale)]
  let s1 := applyHSet s redisKey fields
  if ttlRequested expiration then
    ([RedisCmd.hSet redisKey fields, RedisCmd.expire redisKey (expiration.getD 0)],
     applyExpire s1 redisKey (expiration.getD 0))
  else
    ([RedisCmd.hSet redisKey fields], s1)

/-- The two error kinds thrown by `validateJWT`. -/
inductive JWTError where
  | blacklisted
  | notFoundInValidList
  deriving Repr, DecidableEq

/-- The thrown `Error` messages of src/index.js lines 82 and 88. -/
def errorMessage : JWTError → String
  | JWTError.blacklisted => "JWT is blacklisted"
  | JWTError.notFoundInValidList => "JWT does not exist in valid list"

/-- Embedding of `validateJWT` (src/index.js lines 74-93). -/
def validateJWT (store : RedisJWTHashStore) (keyName rawJWT : String) (s : RedisState) :
    List RedisCmd × Except JWTError Bool :=
  let jwtHash := hashJWT rawJWT
  let blacklistedKey := store.prefixBlacklist ++ ":" ++ keyName ++ ":" ++ jwtHash
  let validKey := store.prefixValid ++ ":" ++ keyName ++ ":" ++ jwtHash
  if existsKey s blacklistedKey then
    ([RedisCmd.existsQ blacklistedKey], Except.error JWTError.blacklisted)
  else if existsKey s validKey then
    ([RedisCmd.existsQ blacklistedKey, RedisCmd.existsQ validKey], Except.ok true)
  else
    ([RedisCmd.existsQ blacklistedKey, RedisCmd.existsQ validKey],
     Except.error JWTError.notFoundInValidList)

/-- Embedding of `deleteRecord` (src/index.js lines 98-102); the source
names its first parameter `prefix`. -/
def deleteRecord (pfx keyName rawJWT : String) (s : RedisState) :
    List RedisCmd × RedisState :=
  let jwtHash := hashJWT rawJWT
  let redisKey := pfx ++ ":" ++ keyName ++ ":" ++ jwtHash
  ([RedisCmd.del [redisKey]], applyDel s [redisKey])

/-- Embedding of `deleteAllByKeyName` (src/index.js lines 111-117); the
source names its first parameter `prefix`.  Note that the source calls
`this.client.keys(pattern)` — the blocking KEYS command — even though its
own doc comment announces SCAN. -/
def deleteAllByKeyName (pfx keyName : String) (s : RedisState) :
    List RedisCmd × RedisState :=
  let pat := pfx ++ ":" ++ keyName ++ ":*"
  let keys := keysMatching s pat
  if keys.length > 0 then
    ([RedisCmd.keysQ pat, RedisCmd.del keys], applyDel s keys)
  else
    ([RedisCmd.keysQ pat], s)

/-! ### Trace predicates and character classes used by the statements -/

/-- Whether a command is a field write (HSET). -/
def isHSetCmd : RedisCmd → Bool
  | RedisCmd.hSet _ _ => true
  | _ => false

/-- Whether a command is an expiration call (EXPIRE). -/
def isExpireCmd : RedisCmd → Bool
  | RedisCmd.expire _ _ => true
  | _ => false

/-- Whether a command is a delete call (DEL). -/
def isDelCmd : RedisCmd → Bool
  | RedisCmd.del _ => true
  | _ => false

/-- Whether a command is a blocking full-keyspace listing (KEYS). -/
def isKeysCmd : RedisCmd → Bool
  | RedisCmd.keysQ _ => true
  | _ => false

/-- Whether a command is a cursor-based iteration step (SCAN). -/
def isScanCmd : RedisCmd → Bool
  | RedisCmd.scanQ _ => true
  | _ => false

/-- Whether a character is a lowercase hexadecimal digit. -/
def isLowerHexChar (c : Char) : Bool := hexChars.contains c

/-! ### Helper lemmas about the store model -/

/-- Sanity check against the standard SHA-256 test vector for "abc". -/
theorem sha256Hex_abc :
    sha256Hex "abc" = "ba7816bf8f01cfea414140de5dae2223b00361a396177a9cb410ff61f20015ad" := by
  decide

/-- Sanity check against the standard SHA-256 test vector for the empty string. -/
theorem sha256Hex_empty :
    sha256Hex "" = "e3b0c44298fc1c149afbf4c8996fb92427ae41e4649b934ca495991b7852b855" := by
  decide

/-- Mapping a key-preserving function over the entries does not change
which keys the store holds. -/
theorem any_fst_map (l : List (String × FieldMap × Option Int))
    (f : String × FieldMap × Option Int → String × FieldMap × Option Int)
    (hf : ∀ e, (f e).1 = e.1) (k' : String) :
    (l.map f).any (fun e => e.1 == k') = l.any (fun e => e.1 == k') := by
  induction l with
  | nil => rfl
  | cons e t ih => simp [List.any_cons, ih, hf]

/-- Finding the TTL of a key commutes with a key- and TTL-preserving map. -/
theorem find?_bind_fst_map (l : List (String × FieldMap × Option Int))
    (f : String × FieldMap × Option Int → String × FieldMap × Option Int)
    (hf : ∀ e, (f e).1 = e.1) (hg : ∀ e, (f e).2.2 = e.2.2) (k' : String) :
    ((l.map f).find? (fun e => e.1 == k')).bind (fun e => e.2.2)
      = (l.find? (fun e => e.1 == k')).bind (fun e => e.2.2) := by
  induction l with
  | nil => rfl
  | cons e t ih =>
      rw [List.map_cons, List.find?_cons, List.find?_cons]
      have hfe : ((f e).1 == k') = (e.1 == k') := by rw [hf]
      by_cases he' : e.1 == k'
      · rw [hfe, he']
        exact hg e
      · have hne : (e.1 == k') = false := by simpa using he'
        rw [hfe, hne]
        exact ih

/-- Appending a fresh TTL-free entry does not change the TTL read at any key. -/
theorem find?_bind_append_none (l : List (String × FieldMap × Option Int))
    (k k' : String) (m : FieldMap) :
    ((l ++ ([(k, m, none)] : List (String × FieldMap × Option Int))).find?
        (fun e => e.1 == k')).bind (fun e => e.2.2)
      = (l.find? (fun e => e.1 == k')).bind (fun e => e.2.2) := by
  induction l with
  | nil => by_cases hk : k == k' <;> simp [List.find?_cons, hk]
  | cons e t ih =>
      rw [List.cons_append, List.find?_cons, List.find?_cons]
      by_cases he' : e.1 == k'
      · rw [he']
      · have hne : (e.1 == k') = false := by simpa using he'
        rw [hne]
        exact ih

/-- List form of the EXPIRE semantics at the targeted key. -/
theorem find?_bind_map_expire (l : List (String × FieldMap × Option Int))
    (k : String) (n : Int) :
    ((l.map (fun e => if e.1 == k then (e.1, e.2.1, some n) else e)).find?
        (fun e => e.1 == k)).bind (fun e => e.2.2)
      = (if l.any (fun e => e.1 == k) then some n else none) := by
  induction l with
  | nil => simp
  | cons e t ih =>
      rw [List.map_cons, List.find?_cons, List.any_cons]
      by_cases he : e.1 == k
      · rw [if_pos he]
        simp [he]
      · rw [if_neg he]
        have hne : (e.1 == k) = false := by simpa using he
        rw [hne]
        simp only [Bool.false_or]
        exact ih

/-- HSET leaves the set of present keys unchanged apart from possibly
adding the written key. -/
theorem existsKey_applyHSet (s : RedisState) (k : String) (fs : FieldMap) (k' : String) :
    existsKey (applyHSet s k fs) k' = (existsKey s k' || (k == k')) := by
  by_cases h : existsKey s k
  · have h' : (s.entries.any fun e => e.1 == k) = true := h
    simp only [applyHSet, existsKey, h', if_true]
    rw [any_fst_map s.entries
      (fun e => if e.1 == k then (e.1, hsetMerge e.2.1 fs, e.2.2) else e)
      (fun e => by by_cases he : e.1 == k <;> simp [he]) k']
    by_cases hk : k = k'
    · subst hk
      simp [h']
    · simp [beq_eq_false_iff_ne.mpr hk]
  · have h' : (s.entries.any fun e => e.1 == k) = false :=
      Bool.not_eq_true (existsKey s k) ▸ h
    simp [applyHSet, h', existsKey, List.any_append, List.any_cons]

/-- EXPIRE does not change which keys are present. -/
theorem existsKey_applyExpire (s : RedisState) (k : String) (n : Int) (k' : String) :
    existsKey (applyExpire s k n) k' = existsKey s k' := by
  simp only [applyExpire, existsKey]
  exact any_fst_map s.entries
    (fun e => if e.1 == k then (e.1, e.2.1, some n) else e)
    (fun e => by by_cases he : e.1 == k <;> simp [he]) k'

/-- HSET never changes the TTL attached to any key. -/
theorem ttlOf_applyHSet (s : RedisState) (k : String) (fs : FieldMap) (k' : String) :
    ttlOf (applyHSet s k fs) k' = ttlOf s k' := by
  by_cases h : existsKey s k
  · have h' : (s.entries.any fun e => e.1 == k) = true := h
    simp only [applyHSet, existsKey, ttlOf, h', if_true]
    exact find?_bind_fst_map s.entries
      (fun e => if e.1 == k then (e.1, hsetMerge e.2.1 fs, e.2.2) else e)
      (fun e => by by_cases he : e.1 == k <;> simp [he])
      (fun e => by by_cases he : e.1 == k <;> simp [he]) k'
  · have h' : (s.entries.any fun e => e.1 == k) = false :=
      Bool.not_eq_true (existsKey s k) ▸ h
    simp only [applyHSet, existsKey, ttlOf]
    rw [if_neg (by simp [h'])]
    exact find?_bind_append_none s.entries k k' (hsetMerge [] fs)

/-- EXPIRE sets the TTL of the targeted key exactly when that key exists. -/
theorem ttlOf_applyExpire_self (s : RedisState) (k : String) (n : Int) :
    ttlOf (applyExpire s k n) k = (if existsKey s k then some n else none) := by
  simp only [applyExpire, ttlOf, existsKey]
  exact find?_bind_map_expire s.entries k n

/-- Keys composed from two prefixes but the same identifier and fingerprint
are equal exactly when the prefixes are equal. -/
theorem composedKey_beq (a b kn h : String) :
    ((a ++ ":" ++ kn ++ ":" ++ h) == (b ++ ":" ++ kn ++ ":" ++ h)) = (a == b) := by
  by_cases hab : a = b
  · subst hab; simp
  · have hne : a ++ ":" ++ kn ++ ":" ++ h ≠ b ++ ":" ++ kn ++ ":" ++ h := by
      intro hEq
      apply hab
      have hd := congrArg String.data hEq
      simp only [String.data_append] at hd
      exact String.ext (List.append_cancel_right (List.append_cancel_right
        (List.append_cancel_right (List.append_cancel_right hd))))
    rw [beq_eq_false_iff_ne.mpr hne, beq_eq_false_iff_ne.mpr hab]

/-- Every output character of the hexadecimal digit table is a lowercase
hexadecimal digit. -/
theorem hexDigit_isLowerHex (n : Nat) : isLowerHexChar (hexDigit n) = true := by
  unfold hexDigit isLowerHexChar
  rw [List.getD_eq_getElem?_getD]
  cases hg : hexChars[n]? with
  | none => decide
  | some c => exact List.elem_iff.mpr (List.getElem?_mem hg)

/-- The fixed-width word rendering always has eight characters. -/
theorem toHex8_length (w : Nat) : (toHex8 w).length = 8 := by
  simp [toHex8]

/-- Every character of the fixed-width word rendering is a lowercase
hexadecimal digit. -/
theorem toHex8_all_lower (w : Nat) : (toHex8 w).all isLowerHexChar = true := by
  rw [List.all_eq_true]
  intro c hc
  obtain ⟨i, _, rfl⟩ := List.mem_map.mp hc
  exact hexDigit_isLowerHex _

/-- The rendered digest always has 64 characters. -/
theorem stateToHex_length (st : Sha256State) : (stateToHex st).length = 64 := by
  simp [stateToHex, toHex8_length]

/-- Every character of the rendered digest is a lowercase hexadecimal digit. -/
theorem stateToHex_all_lower (st : Sha256State) :
    (stateToHex st).all isLowerHexChar = true := by
  simp [stateToHex, List.all_append, toHex8_all_lower]

/-! ### Claim theorems -/

/-- Claim C10: for every raw token, the fingerprint function is a pure,
deterministic function of the token alone (it takes no store state):
computing it twice yields identical output, and the output is a
fixed-length (64 character) string of lowercase hexadecimal digits. -/
theorem hashJWT_deterministic_fixed_lowercase_hex (t : String) :
    hashJWT t = hashJWT t ∧ (hashJWT t).length = 64 ∧
      (hashJWT t).data.all isLowerHexChar = true := by
  refine ⟨rfl, ?_, ?_⟩
  · exact stateToHex_length _
  · exact stateToHex_all_lower _

/-- Claim C2: validate checks the blacklisted-category key first (the first
command issued is the existence check of that key), and its outcome is the
Blacklisted error exactly when the blacklisted-category key exists —
regardless of the valid-category record, so a token recorded both valid
and blacklisted fails with Blacklisted. -/
theorem validateJWT_blacklist_precedence (store : RedisJWTHashStore)
    (keyName rawJWT : String) (s : RedisState) :
    (validateJWT store keyName rawJWT s).fst.head? =
      some (RedisCmd.existsQ
        (store.prefixBlacklist ++ ":" ++ keyName ++ ":" ++ hashJWT rawJWT)) ∧
    ((validateJWT store keyName rawJWT s).snd = Except.error JWTError.blacklisted ↔
      existsKey s (store.prefixBlacklist ++ ":" ++ keyName ++ ":" ++ hashJWT rawJWT)
        = true) := by
  by_cases hb : existsKey s (store.prefixBlacklist ++ ":" ++ keyName ++ ":" ++ hashJWT rawJWT)
  · simp [validateJWT, hb]
  · have hb' : existsKey s (store.prefixBlacklist ++ ":" ++ keyName ++ ":" ++ hashJWT rawJWT)
        = false := Bool.not_eq_true _ ▸ hb
    by_cases hv : existsKey s (store.prefixValid ++ ":" ++ keyName ++ ":" ++ hashJWT rawJWT)
    · simp [validateJWT, hb', hv]
    · have hv' : existsKey s (store.prefixValid ++ ":" ++ keyName ++ ":" ++ hashJWT rawJWT)
          = false := Bool.not_eq_true _ ▸ hv
      simp [validateJWT, hb', hv']

/-- Claim C3: when the blacklisted-category key is absent, validate fails
with NotFound exactly when the valid-category key is absent and succeeds
exactly when it is present, and its trace is just the two existence
checks — no command reading the record's fields back. -/
theorem validateJWT_not_blacklisted_cases (store : RedisJWTHashStore)
    (keyName rawJWT : String) (s : RedisState)
    (hb : existsKey s (store.prefixBlacklist ++ ":" ++ keyName ++ ":" ++ hashJWT rawJWT)
      = false) :
    ((validateJWT store keyName rawJWT s).snd
        = Except.error JWTError.notFoundInValidList ↔
      existsKey s (store.prefixValid ++ ":" ++ keyName ++ ":" ++ hashJWT rawJWT)
        = false) ∧
    ((validateJWT store keyName rawJWT s).snd = Except.ok true ↔
      existsKey s (store.prefixValid ++ ":" ++ keyName ++ ":" ++ hashJWT rawJWT)
        = true) ∧
    (validateJWT store keyName rawJWT s).fst =
      [RedisCmd.existsQ (store.prefixBlacklist ++ ":" ++ keyName ++ ":" ++ hashJWT rawJWT),
       RedisCmd.existsQ (store.prefixValid ++ ":" ++ keyName ++ ":" ++ hashJWT rawJWT)] := by
  by_cases hv : existsKey s (store.prefixValid ++ ":" ++ keyName ++ ":" ++ hashJWT rawJWT)
  · simp [validateJWT, hb, hv]
  · have hv' : existsKey s (store.prefixValid ++ ":" ++ keyName ++ ":" ++ hashJWT rawJWT)
        = false := Bool.not_eq_true _ ▸ hv
    simp [validateJWT, hb, hv']

/-- Witness for claim C3 at a concrete never-recorded token on the empty
store: the hypothesis (blacklisted key absent) holds by computation. -/
theorem validateJWT_not_blacklisted_cases_witness :
    ((validateJWT defaultStore "user123" "tok-B" emptyRedis).snd
        = Except.error JWTError.notFoundInValidList ↔
      existsKey emptyRedis
        (defaultStore.prefixValid ++ ":" ++ "user123" ++ ":" ++ hashJWT "tok-B")
        = false) ∧
    ((validateJWT defaultStore "user123" "tok-B" emptyRedis).snd = Except.ok true ↔
      existsKey emptyRedis
        (defaultStore.prefixValid ++ ":" ++ "user123" ++ ":" ++ hashJWT "tok-B")
        = true) ∧
    (validateJWT defaultStore "user123" "tok-B" emptyRedis).fst =
      [RedisCmd.existsQ
        (defaultStore.prefixBlacklist ++ ":" ++ "user123" ++ ":" ++ hashJWT "tok-B"),
       RedisCmd.existsQ
        (defaultStore.prefixValid ++ ":" ++ "user123" ++ ":" ++ hashJWT "tok-B")] :=
  validateJWT_not_blacklisted_cases defaultStore "user123" "tok-B" emptyRedis rfl

/-- Claim C4: recordValid issues exactly one field write, at exactly the key
"prefixValid:identifier:fingerprint" with the fingerprint being the
lowercase hexadecimal SHA-256 digest of the raw token, and the fields
written are exactly keyName (identifier), jwtHash (fingerprint) and
locale (context); that write is the first command issued. -/
theorem storeValidJWT_writes_exact_key_fields (store : RedisJWTHashStore)
    (keyName rawJWT locale : String) (expiration : Option Int) (s : RedisState) :
    (storeValidJWT store keyName rawJWT locale expiration s).fst.filter isHSetCmd =
      [RedisCmd.hSet (store.prefixValid ++ ":" ++ keyName ++ ":" ++ sha256Hex rawJWT)
        [("keyName", keyName), ("jwtHash", sha256Hex rawJWT), ("locale", locale)]] ∧
    (storeValidJWT store keyName rawJWT locale expiration s).fst.head? =
      some (RedisCmd.hSet (store.prefixValid ++ ":" ++ keyName ++ ":" ++ sha256Hex rawJWT)
        [("keyName", keyName), ("jwtHash", sha256Hex rawJWT), ("locale", locale)]) := by
  by_cases he : ttlRequested expiration
  · simp [storeValidJWT, hashJWT, he, isHSetCmd, List.filter]
  · have he' : ttlRequested expiration = false := Bool.not_eq_true _ ▸ he
    simp [storeValidJWT, hashJWT, he', isHSetCmd, List.filter]

/-- Claim C5: for both record operations, the JavaScript guard
`expiration && expiration > 0` holds exactly for a present positive TTL;
when it holds the trace is the field write followed by exactly one
expiration call carrying that TTL, and the key's TTL afterwards is that
value; otherwise (absent, zero or negative TTL) no expiration call is
issued and the key's TTL is exactly whatever it was before the call. -/
theorem store_ttl_semantics (store : RedisJWTHashStore)
    (keyName rawJWT locale : String) (expiration : Option Int) (s : RedisState) :
    ttlRequested expiration = decide (0 < expiration.getD 0) ∧
    (storeValidJWT store keyName rawJWT locale expiration s).fst =
      RedisCmd.hSet (store.prefixValid ++ ":" ++ keyName ++ ":" ++ hashJWT rawJWT)
          [("keyName", keyName), ("jwtHash", hashJWT rawJWT), ("locale", locale)] ::
        (if ttlRequested expiration then
          [RedisCmd.expire (store.prefixValid ++ ":" ++ keyName ++ ":" ++ hashJWT rawJWT)
            (expiration.getD 0)]
         else []) ∧
    ttlOf (storeValidJWT store keyName rawJWT locale expiration s).snd
        (store.prefixValid ++ ":" ++ keyName ++ ":" ++ hashJWT rawJWT) =
      (if ttlRequested expiration then some (expiration.getD 0)
       else ttlOf s (store.prefixValid ++ ":" ++ keyName ++ ":" ++ hashJWT rawJWT)) ∧
    (storeBlacklistedJWT store keyName rawJWT locale expiration s).fst =
      RedisCmd.hSet (store.prefixBlacklist ++ ":" ++ keyName ++ ":" ++ hashJWT rawJWT)
          [("keyName", keyName), ("jwtHash", hashJWT rawJWT), ("locale", locale)] ::
        (if ttlRequested expiration then
          [RedisCmd.expire (store.prefixBlacklist ++ ":" ++ keyName ++ ":" ++ hashJWT rawJWT)
            (expiration.getD 0)]
         else []) ∧
    ttlOf (storeBlacklistedJWT store keyName rawJWT locale expiration s).snd
        (store.prefixBlacklist ++ ":" ++ keyName ++ ":" ++ hashJWT rawJWT) =
      (if ttlRequested expiration then some (expiration.getD 0)
       else ttlOf s (store.prefixBlacklist ++ ":" ++ keyName ++ ":" ++ hashJWT rawJWT)) := by
  refine ⟨?_, ?_, ?_, ?_, ?_⟩
  · cases expiration with
    | none => simp [ttlRequested]
    | some n =>
        by_cases h0 : n = 0
        · subst h0; simp [ttlRequested]
        · simp [ttlRequested, h0]
  · by_cases he : ttlRequested expiration
    · simp [storeValidJWT, he]
    · have he' : ttlRequested expiration = false := Bool.not_eq_true _ ▸ he
      simp [storeValidJWT, he']
  · by_cases he : ttlRequested expiration
    · simp only [storeValidJWT, he, if_true]
      rw [ttlOf_applyExpire_self, existsKey_applyHSet]
      simp
    · have he' : ttlRequested expiration = false := Bool.not_eq_true _ ▸ he
      simp only [storeValidJWT, he', Bool.false_eq_true, if_false]
      rw [ttlOf_applyHSet]
  · by_cases he : ttlRequested expiration
    · simp [storeBlacklistedJWT, he]
    · have he' : ttlRequested expiration = false := Bool.not_eq_true _ ▸ he
      simp [storeBlacklistedJWT, he']
  · by_cases he : ttlRequested expiration
    · simp only [storeBlacklistedJWT, he, if_true]
      rw [ttlOf_applyExpire_self, existsKey_applyHSet]
      simp
    · have he' : ttlRequested expiration = false := Bool.not_eq_true _ ▸ he
      simp only [storeBlacklistedJWT, he', Bool.false_eq_true, if_false]
      rw [ttlOf_applyHSet]

/-- Claim C6: bulk deletion issues exactly one DEL covering every matched
key when the enumeration finds any, and otherwise issues no DEL at all,
returns normally and leaves the store unchanged. -/
theorem deleteAllByKeyName_bulk_delete (pfx keyName : String) (s : RedisState) :
    (deleteAllByKeyName pfx keyName s).fst.filter isDelCmd =
      (if (keysMatching s (pfx ++ ":" ++ keyName ++ ":*")).isEmpty then []
       else [RedisCmd.del (keysMatching s (pfx ++ ":" ++ keyName ++ ":*"))]) ∧
    (deleteAllByKeyName pfx keyName s).snd =
      (if (keysMatching s (pfx ++ ":" ++ keyName ++ ":*")).isEmpty then s
       else applyDel s (keysMatching s (pfx ++ ":" ++ keyName ++ ":*"))) := by
  cases hks : keysMatching s (pfx ++ ":" ++ keyName ++ ":*") with
  | nil => simp [deleteAllByKeyName, hks, isDelCmd, List.filter]
  | cons a t => simp [deleteAllByKeyName, hks, isDelCmd, List.filter]

/-- Claim C7: recordBlacklisted is recordValid with the category prefixes
swapped: same fingerprint, same field map, same key shape and same
conditional expiration logic, differing only in the prefix used. -/
theorem storeBlacklistedJWT_refines_storeValidJWT (store : RedisJWTHashStore)
    (keyName rawJWT locale : String) (expiration : Option Int) (s : RedisState) :
    storeBlacklistedJWT store keyName rawJWT locale expiration s =
      storeValidJWT ⟨store.prefixBlacklist, store.prefixValid⟩
        keyName rawJWT locale expiration s := rfl

/-- Claim C8: recording under one category leaves the other category's key
for the same identifier and fingerprint exactly as it was, whenever the two
configured prefixes differ (the disjunct degenerates to the old existence
check because equal composed keys force equal prefixes). -/
theorem store_category_isolation (store : RedisJWTHashStore)
    (keyName rawJWT locale : String) (expiration : Option Int) (s : RedisState) :
    existsKey (storeValidJWT store keyName rawJWT locale expiration s).snd
        (store.prefixBlacklist ++ ":" ++ keyName ++ ":" ++ hashJWT rawJWT) =
      (existsKey s (store.prefixBlacklist ++ ":" ++ keyName ++ ":" ++ hashJWT rawJWT) ||
        (store.prefixValid == store.prefixBlacklist)) ∧
    existsKey (storeBlacklistedJWT store keyName rawJWT locale expiration s).snd
        (store.prefixValid ++ ":" ++ keyName ++ ":" ++ hashJWT rawJWT) =
      (existsKey s (store.prefixValid ++ ":" ++ keyName ++ ":" ++ hashJWT rawJWT) ||
        (store.prefixBlacklist == store.prefixValid)) := by
  constructor
  · by_cases he : ttlRequested expiration
    · simp only [storeValidJWT, he, if_true]
      rw [existsKey_applyExpire, existsKey_applyHSet, composedKey_beq]
    · have he' : ttlRequested expiration = false := Bool.not_eq_true _ ▸ he
      simp only [storeValidJWT, he', Bool.false_eq_true, if_false]
      rw [existsKey_applyHSet, composedKey_beq]
  · by_cases he : ttlRequested expiration
    · simp only [storeBlacklistedJWT, he, if_true]
      rw [existsKey_applyExpire, existsKey_applyHSet, composedKey_beq]
    · have he' : ttlRequested expiration = false := Bool.not_eq_true _ ▸ he
      simp only [storeBlacklistedJWT, he', Bool.false_eq_true, if_false]
      rw [existsKey_applyHSet, composedKey_beq]

/-- Claim C1 (divergence): at a concrete call, deleteAllByKeyName issues the
single blocking full-keyspace listing (KEYS) and never a cursor-based
iteration step (SCAN), contradicting both the specification and the
function's own doc comment, which promise SCAN instead of KEYS. -/
theorem deleteAllByKeyName_issues_blocking_keys :
    (deleteAllByKeyName "valid-jwt" "user123" emptyRedis).fst =
      [RedisCmd.keysQ "valid-jwt:user123:*"] ∧
    (deleteAllByKeyName "valid-jwt" "user123" emptyRedis).fst.filter isScanCmd = [] ∧
    (deleteAllByKeyName "valid-jwt" "user123" emptyRedis).fst.filter isKeysCmd =
      [RedisCmd.keysQ "valid-jwt:user123:*"] := by
  decide

set_option maxRecDepth 100000 in
/-- Claim C9: key composition does not escape the ":" delimiter, so for the
distinct identifiers "user123" and "user123:admin", the wildcard pattern
composed for "user123" matches the record key of a token recorded under
"user123:admin", and bulk deletion for "user123" also deletes that
record. -/
theorem deleteAllByKeyName_delimiter_injection :
    ("user123" : String) ≠ "user123:admin" ∧
    globMatch "valid-jwt:user123:*"
      ("valid-jwt" ++ ":" ++ "user123:admin" ++ ":" ++ hashJWT "tok-A") = true ∧
    existsKey
      (storeValidJWT defaultStore "user123:admin" "tok-A" "127.0.0.1"
        (some 3600) emptyRedis).snd
      ("valid-jwt" ++ ":" ++ "user123:admin" ++ ":" ++ hashJWT "tok-A") = true ∧
    existsKey
      (deleteAllByKeyName "valid-jwt" "user123"
        (storeValidJWT defaultStore "user123:admin" "tok-A" "127.0.0.1"
          (some 3600) emptyRedis).snd).snd
      ("valid-jwt" ++ ":" ++ "user123:admin" ++ ":" ++ hashJWT "tok-A") = false := by
  decide
